import Mathlib

/-!
Verification of the marker interaction and state engine of the
`image_marker` application: marker-list mutation (draw, erase,
link/unlink under grouping invariants), the bounded undo stack, the
pinch-zoom / fit-to-screen view transform, and the study-mode
reveal/lock machine.  Each definition is a shallow embedding of the
corresponding handler in `src/pages/Editor.tsx`,
`src/components/ImageEditor.tsx` or the study player component.
-/

namespace ImageMarker

/-- A point `{x, y}` (view-space contact position or content-space drag corner). -/
structure Point where
  x : ℚ
  y : ℚ
deriving DecidableEq, Repr

/-- A marker rectangle in image-native pixel space with its optional group id
and lock flag.  Group ids (UUID strings in the source) are modelled as `Nat`;
`groupId = none` models an absent `groupId` field, `isLocked = false` models an
absent or false `isLocked` field. -/
structure Marker where
  x : ℚ
  y : ℚ
  width : ℚ
  height : ℚ
  groupId : Option Nat := none
  isLocked : Bool := false
deriving DecidableEq, Repr

attribute [ext] Point

/-- The view transform `{scale, x, y}`: content-space point `p` maps to
view-space `p * scale + (x, y)`. -/
structure Transform where
  scale : ℚ
  x : ℚ
  y : ℚ
deriving DecidableEq, Repr

/-- Editor page state for a single image: its marker list, the undo history
(snapshots of prior marker lists), and the link-mode session
`{active, parentMarkerIndex, imageId}`. -/
structure EditorState where
  markers : List Marker
  history : List (List Marker)
  linkActive : Bool
  parentMarkerIndex : Option Nat
  linkImageId : Option Nat
deriving DecidableEq, Repr

/-- JS `l.slice(-n)`: the last `n` elements of `l` (all of `l` when it has
fewer than `n`). -/
def sliceLast (n : Nat) (l : List α) : List α := l.drop (l.length - n)

/-- `setHistory(prev => [...prev.slice(-9), { imageId, markers: snapshot }])`:
append the pre-mutation snapshot, keeping at most the previous 9 entries. -/
def pushHistory (history : List (List Marker)) (snapshot : List Marker) :
    List (List Marker) :=
  sliceLast 9 history ++ [snapshot]

/-- `handleAddMarker` in `Editor.tsx`: push the pre-mutation marker list to the
history, then append the new marker. -/
def handleAddMarker (s : EditorState) (marker : Marker) : EditorState :=
  { s with
    history := pushHistory s.history s.markers
    markers := s.markers ++ [marker] }

/-- `handlePointerUp` in `ImageEditor.tsx`: compute the final drag rectangle
from the drag's start and current positions; commit it via `onAddMarker`
(`handleAddMarker`) only when `width > 5 && height > 5`, else discard. -/
def handlePointerUp (s : EditorState) (startPos currentPos : Point) : EditorState :=
  let x := min startPos.x currentPos.x
  let y := min startPos.y currentPos.y
  let width := |currentPos.x - startPos.x|
  let height := |currentPos.y - startPos.y|
  if 5 < width ∧ 5 < height then
    handleAddMarker s { x := x, y := y, width := width, height := height }
  else s

/-- `handleRemoveMarker` in `Editor.tsx`: look up the target (JS would crash on
an out-of-range index, modelled as `none`), push the pre-mutation snapshot,
then either cascade-delete the whole group (`filter(m => m.groupId !==
targetMarker.groupId)`) or delete just the indexed marker
(`filter((_, i) => i !== index)`). -/
def handleRemoveMarker (s : EditorState) (index : Nat) : Option EditorState :=
  match s.markers[index]? with
  | none => none
  | some targetMarker =>
    let history := pushHistory s.history s.markers
    let newMarkers :=
      match targetMarker.groupId with
      | some g => s.markers.filter (fun m => m.groupId ≠ some g)
      | none => (s.markers.enum.filter (fun p => p.1 ≠ index)).map Prod.snd
    some { s with markers := newMarkers, history := history }

/-- `handleUndo` in `Editor.tsx`: no-op on empty history, else restore the most
recent snapshot and drop it from the history. -/
def handleUndo (s : EditorState) : EditorState :=
  match s.history.getLast? with
  | none => s
  | some lastMarkers => { s with markers := lastMarkers, history := s.history.dropLast }

/-- `handleExitLinkMode` in `Editor.tsx`: clear the link session. -/
def handleExitLinkMode (s : EditorState) : EditorState :=
  { s with linkActive := false, parentMarkerIndex := none, linkImageId := none }

/-- `handleEnterLinkMode` in `Editor.tsx`: reject (no-op) when the marker
belongs to a group but is not its first member (`findIndex` of the group id);
otherwise open a session with this marker as parent. -/
def handleEnterLinkMode (s : EditorState) (imageId markerIndex : Nat) :
    Option EditorState :=
  match s.markers[markerIndex]? with
  | none => none
  | some marker =>
    match marker.groupId with
    | some g =>
      if s.markers.findIdx (fun m => m.groupId = some g) ≠ markerIndex then some s
      else some { s with linkActive := true, parentMarkerIndex := some markerIndex,
                         linkImageId := some imageId }
    | none => some { s with linkActive := true, parentMarkerIndex := some markerIndex,
                            linkImageId := some imageId }

/-- `crypto.randomUUID()` modelled as a deterministic fresh-id generator:
one more than the largest group id occurring in the list, hence distinct from
every group id in use (see `freshGroupId_not_used`). -/
def freshGroupId (markers : List Marker) : Nat :=
  (markers.filterMap Marker.groupId).foldr max 0 + 1

/-- `handleLinkMarker` in `Editor.tsx`.  Guard: no-op unless the link session
is active on this image.  `parentMarkerIndex!` and the JS index accesses crash
on `null`/out-of-range, modelled as `none`.  Tapping the parent exits the
session.  Otherwise: push a snapshot; ensure the parent has a group id
(generating a fresh one if absent); then toggle the target — unlink when it
carries the parent's id (dissolving a group left with no other member), link
when it is ungrouped (moving the parent in front of a lower-indexed target via
`splice`), and ignore when it belongs to another group. -/
def handleLinkMarker (s : EditorState) (imageId targetIndex : Nat) :
    Option EditorState :=
  if ¬ s.linkActive ∨ s.linkImageId ≠ some imageId then some s
  else
    match s.parentMarkerIndex with
    | none => none
    | some parentIndex =>
      if parentIndex = targetIndex then some (handleExitLinkMode s)
      else
        match s.markers[parentIndex]?, s.markers[targetIndex]? with
        | some parentMarker, some targetMarker =>
          let history := pushHistory s.history s.markers
          let groupId := parentMarker.groupId.getD (freshGroupId s.markers)
          let ms1 :=
            match parentMarker.groupId with
            | some _ => s.markers
            | none => s.markers.set parentIndex { parentMarker with groupId := some groupId }
          if targetMarker.groupId = some groupId then
            let ms2 := ms1.set targetIndex { targetMarker with groupId := none }
            let othersInGroup : List (Nat × Marker) :=
              ms2.enum.filter (fun p => p.1 ≠ parentIndex ∧ p.2.groupId = some groupId)
            let ms3 :=
              if othersInGroup.length = 0 then
                match ms2[parentIndex]? with
                | some pm => ms2.set parentIndex { pm with groupId := none }
                | none => ms2
              else ms2
            some { s with markers := ms3, history := history }
          else if targetMarker.groupId = none then
            let ms2 := ms1.set targetIndex { targetMarker with groupId := some groupId }
            if targetIndex < parentIndex then
              match ms2[parentIndex]? with
              | some movedParent =>
                some { s with
                  markers := (ms2.eraseIdx parentIndex).insertIdx targetIndex movedParent
                  history := history
                  parentMarkerIndex := some targetIndex }
              | none => none
            else some { s with markers := ms2, history := history }
          else
            some { s with markers := ms1, history := history }
        | _, _ => none

/-- Scale bound used by the pinch-zoom clamp (`Math.max(..., 0.1)`). -/
def minScale : ℚ := 1/10

/-- Scale bound used by the pinch-zoom clamp (`Math.min(..., 5)`). -/
def maxScale : ℚ := 5

/-- Apply the view transform: `translate(x, y) scale(s)` maps content-space
`p` to view-space `p * scale + translate`. -/
def toViewSpace (t : Transform) (p : Point) : Point :=
  { x := p.x * t.scale + t.x, y := p.y * t.scale + t.y }

/-- Invert the view transform, as `getSvgCoordinates` does with the screen
CTM: `content = (client - translate) / scale`. -/
def toContentSpace (t : Transform) (p : Point) : Point :=
  { x := (p.x - t.x) / t.scale, y := (p.y - t.y) / t.scale }

/-- The two-touch (pinch-zoom) branch of `handleTouchMove` in `Editor.tsx`.
The touch distances (`Math.hypot`, supplied by the input collaborator) enter
only through `scaleFactor = dist / lastDist`:
`newScale = clamp(prev.scale * scaleFactor, 0.1, 5)`, and the translate is
recomputed about the pinch centroid with `actualScaleFactor =
newScale / prev.scale`. -/
def updateZoomTransform (prev : Transform) (touch1 touch2 : Point)
    (lastDist dist : ℚ) : Transform :=
  let scaleFactor := dist / lastDist
  let newScale := min (max (prev.scale * scaleFactor) minScale) maxScale
  let cx := (touch1.x + touch2.x) / 2
  let cy := (touch1.y + touch2.y) / 2
  let actualScaleFactor := newScale / prev.scale
  { scale := newScale
    x := cx - (cx - prev.x) * actualScaleFactor
    y := cy - (cy - prev.y) * actualScaleFactor }

/-- The scale set by `handleFitScreen` in `Editor.tsx`: `padding = 40`,
`availableWidth = window.innerWidth - padding`,
`fitScale = availableWidth / naturalWidth` — with no clamping. -/
def fitScreenScale (naturalWidth innerWidth : ℚ) : ℚ :=
  let padding : ℚ := 40
  let availableWidth := innerWidth - padding
  availableWidth / naturalWidth

/-- Study-player state: the image's (persisted) marker list, the session-only
set of transparent marker indices (`Set<number>`), and a log of the marker
lists written to the database (`db.images.update`), recording each
persistence write. -/
structure PlayerState where
  markers : List Marker
  transparentMarkers : Finset Nat
  writeLog : List (List Marker)
deriving DecidableEq

/-- The group-index scan in `handleMarkerTap`:
`markers.map((m, i) => m.groupId === marker.groupId ? i : -1).filter(i => i !== -1)`
when the tapped marker is linked, else just `[index]`. -/
def groupIndicesOf (markers : List Marker) (marker : Marker) (index : Nat) :
    List Nat :=
  if marker.groupId.isSome then
    (markers.enum.filter (fun p => p.2.groupId = marker.groupId)).map Prod.fst
  else [index]

/-- The database update in `handleMarkerTap`: set `isLocked` on every marker
whose index is in `groupIndices`. -/
def setLockedAt (markers : List Marker) (groupIndices : List Nat) (locked : Bool) :
    List Marker :=
  markers.mapIdx (fun i m => if i ∈ groupIndices then { m with isLocked := locked } else m)

/-- `handleMarkerTap` in the study player (`ImagePlayer.tsx`): three-state
cycle per marker-or-group.  DEFAULT (not locked, not transparent) → mark every
group index transparent (session-only, no write); TRANSPARENT → persist
`isLocked = true` for every group index and clear their transparency;
LOCKED → persist `isLocked = false` for every group index. -/
def handleMarkerTap (s : PlayerState) (index : Nat) : Option PlayerState :=
  match s.markers[index]? with
  | none => none
  | some marker =>
    let groupIndices := groupIndicesOf s.markers marker index
    if marker.isLocked = false ∧ index ∉ s.transparentMarkers then
      some { s with transparentMarkers := s.transparentMarkers ∪ groupIndices.toFinset }
    else if marker.isLocked = false ∧ index ∈ s.transparentMarkers then
      let newMarkers := setLockedAt s.markers groupIndices true
      some { s with
        markers := newMarkers
        transparentMarkers := s.transparentMarkers \ groupIndices.toFinset
        writeLog := s.writeLog ++ [newMarkers] }
    else
      let newMarkers := setLockedAt s.markers groupIndices false
      some { s with markers := newMarkers, writeLog := s.writeLog ++ [newMarkers] }

/-! ### Helper lemmas -/

theorem le_foldr_max {l : List Nat} {g : Nat} (h : g ∈ l) : g ≤ l.foldr max 0 := by
  induction l with
  | nil => cases h
  | cons a t ih =>
    rcases List.mem_cons.mp h with rfl | h
    · exact le_max_left _ _
    · exact le_trans (ih h) (le_max_right _ _)

/-- The modelled fresh group id is distinct from every group id in the list,
as `crypto.randomUUID()` is from every id in use. -/
theorem freshGroupId_not_used {markers : List Marker} {m : Marker}
    (hm : m ∈ markers) : m.groupId ≠ some (freshGroupId markers) := by
  intro hg
  have hmem : freshGroupId markers ∈ markers.filterMap Marker.groupId :=
    List.mem_filterMap.mpr ⟨m, hm, hg⟩
  have := le_foldr_max hmem
  simp only [freshGroupId] at this
  omega

/-! ### C2: draw threshold -/

/-- C2: a drag whose final rectangle has width > 5 and height > 5 appends
exactly one ungrouped marker with exactly those bounds; a drag whose final
rectangle has width ≤ 5 or height ≤ 5 leaves the whole editor state, in
particular the marker list, unchanged. -/
theorem C2_draw_threshold (s : EditorState) (p q : Point) :
    (5 < |q.x - p.x| ∧ 5 < |q.y - p.y| →
      (handlePointerUp s p q).markers =
        s.markers ++ [{ x := min p.x q.x, y := min p.y q.y,
                        width := |q.x - p.x|, height := |q.y - p.y|,
                        groupId := none, isLocked := false }]) ∧
    ((|q.x - p.x| ≤ 5 ∨ |q.y - p.y| ≤ 5) → handlePointerUp s p q = s) := by
  constructor
  · intro h
    simp only [handlePointerUp]
    rw [if_pos h]
    simp [handleAddMarker]
  · intro h
    simp only [handlePointerUp]
    rw [if_neg]
    rintro ⟨h1, h2⟩
    rcases h with h | h <;> linarith

theorem C2_draw_threshold_witness :
    ((5 < |(10 : ℚ) - 0| ∧ 5 < |(7 : ℚ) - 0|) ∧
      (handlePointerUp ⟨[], [], false, none, none⟩ ⟨0, 0⟩ ⟨10, 7⟩).markers =
        [] ++ [{ x := min (0 : ℚ) 10, y := min (0 : ℚ) 7,
                 width := |(10 : ℚ) - 0|, height := |(7 : ℚ) - 0|,
                 groupId := none, isLocked := false }]) ∧
    ((|(10 : ℚ) - 0| ≤ 5 ∨ |(5 : ℚ) - 0| ≤ 5) ∧
      handlePointerUp ⟨[], [], false, none, none⟩ ⟨0, 0⟩ ⟨10, 5⟩ =
        ⟨[], [], false, none, none⟩) :=
  ⟨⟨by norm_num, (C2_draw_threshold ⟨[], [], false, none, none⟩ ⟨0, 0⟩ ⟨10, 7⟩).1 (by norm_num)⟩,
   ⟨by norm_num, (C2_draw_threshold ⟨[], [], false, none, none⟩ ⟨0, 0⟩ ⟨10, 5⟩).2 (by norm_num)⟩⟩

/-! ### C5: add/undo round trip -/

/-- C5: committing an accepted drag rectangle (`addMarker`) and then
immediately undoing restores the pre-add marker list exactly, and undo on an
empty history is a no-op. -/
theorem C5_add_undo_roundtrip (s : EditorState) (p q : Point)
    (hw : 5 < |q.x - p.x|) (hh : 5 < |q.y - p.y|) :
    (handleUndo (handlePointerUp s p q)).markers = s.markers ∧
    (s.history = [] → handleUndo s = s) := by
  constructor
  · simp only [handlePointerUp]
    rw [if_pos ⟨hw, hh⟩]
    simp [handleAddMarker, handleUndo, pushHistory, List.getLast?_concat]
  · intro h
    simp [handleUndo, h]

theorem C5_add_undo_roundtrip_witness :
    (5 < |(10 : ℚ) - 0| ∧ 5 < |(7 : ℚ) - 0|) ∧
    (handleUndo (handlePointerUp ⟨[], [], false, none, none⟩ ⟨0, 0⟩ ⟨10, 7⟩)).markers = [] :=
  ⟨⟨by norm_num, by norm_num⟩,
   (C5_add_undo_roundtrip ⟨[], [], false, none, none⟩ ⟨0, 0⟩ ⟨10, 7⟩
      (by norm_num) (by norm_num)).1⟩

/-! ### C6: pinch centroid fixed point -/

/-- C6: for a positive starting scale, the pinch-zoom update of
`handleTouchMove` keeps the content-space point lying under the pinch centroid
at the same view-space position (exactly, over exact arithmetic), clamping
included. -/
theorem C6_pinch_centroid_fixed (t : Transform) (t1 t2 : Point)
    (lastDist dist : ℚ) (hs : 0 < t.scale) :
    toViewSpace (updateZoomTransform t t1 t2 lastDist dist)
        (toContentSpace t ⟨(t1.x + t2.x) / 2, (t1.y + t2.y) / 2⟩) =
      ⟨(t1.x + t2.x) / 2, (t1.y + t2.y) / 2⟩ := by
  have hs0 : t.scale ≠ 0 := ne_of_gt hs
  ext <;> simp only [toViewSpace, toContentSpace, updateZoomTransform] <;>
    field_simp <;> ring

theorem C6_pinch_centroid_fixed_witness :
    0 < (2 : ℚ) ∧
    toViewSpace (updateZoomTransform ⟨2, 30, 40⟩ ⟨100, 0⟩ ⟨300, 80⟩ 100 150)
        (toContentSpace ⟨2, 30, 40⟩ ⟨(100 + 300) / 2, (0 + 80) / 2⟩) =
      ⟨(100 + 300) / 2, (0 + 80) / 2⟩ :=
  ⟨by norm_num, C6_pinch_centroid_fixed ⟨2, 30, 40⟩ ⟨100, 0⟩ ⟨300, 80⟩ 100 150 (by norm_num)⟩

/-! ### C7: scale bounds -/

/-- C7 counterexample: `fitToScreen` on a 10000-pixel-wide image in a
375-pixel viewport sets scale (375 − 40) / 10000 = 0.0335, outside the
configured bounds [0.1, 5]; so not every scale-setting operation keeps the
scale within bounds. -/
theorem C7_counterexample :
    ¬ (minScale ≤ fitScreenScale 10000 375 ∧ fitScreenScale 10000 375 ≤ maxScale) := by
  norm_num [fitScreenScale, minScale, maxScale]

/-- C7 amended: the pinch-zoom update clamps, so its resulting scale is within
[0.1, 5] for every input; `fitToScreen` sets the unclamped scale
(viewportWidth − 40) / nativeWidth, which can fall outside the bounds
(concretely, 0.0335 < 0.1 for a 10000-wide image in a 375-wide viewport). -/
theorem C7_scale_bounds_amended :
    (∀ (t : Transform) (t1 t2 : Point) (lastDist dist : ℚ),
      minScale ≤ (updateZoomTransform t t1 t2 lastDist dist).scale ∧
        (updateZoomTransform t t1 t2 lastDist dist).scale ≤ maxScale) ∧
    fitScreenScale 10000 375 = 67 / 2000 ∧ fitScreenScale 10000 375 < minScale := by
  refine ⟨fun t t1 t2 lastDist dist => ⟨?_, ?_⟩, by norm_num [fitScreenScale], by norm_num [fitScreenScale, minScale]⟩
  · simp only [updateZoomTransform]
    exact le_min (le_max_right _ _) (by norm_num [minScale, maxScale])
  · simp only [updateZoomTransform]
    exact min_le_right _ _

/-! ### C4: bounded undo depth -/

theorem pushHistory_eq_sliceLast (h : List (List Marker)) (snap : List Marker) :
    pushHistory h snap = sliceLast 10 (h ++ [snap]) := by
  simp only [pushHistory, sliceLast, List.length_append, List.length_singleton]
  rw [List.drop_append_eq_append_drop]
  have h1 : h.length - 9 - h.length = 0 := by omega
  have h2 : h.length + 1 - 10 = h.length - 9 := by omega
  rw [h2, h1, List.drop_zero]

theorem sliceLast_append_of_le {α : Type} (k : Nat) (a b : List α)
    (hk : k ≤ b.length) : sliceLast k (a ++ b) = sliceLast k b := by
  simp only [sliceLast, List.length_append]
  have : a.length + b.length - k = a.length + (b.length - k) := by omega
  rw [this, List.drop_append]

theorem sliceLast_sliceLast_append {α : Type} (k : Nat) (l r : List α) :
    sliceLast k (sliceLast k l ++ r) = sliceLast k (l ++ r) := by
  by_cases hl : l.length ≤ k
  · have : sliceLast k l = l := by
      simp [sliceLast, Nat.sub_eq_zero_of_le hl]
    rw [this]
  · push_neg at hl
    have hlen : (l.drop (l.length - k)).length = k := by
      simp only [List.length_drop]
      omega
    conv_rhs => rw [← List.take_append_drop (l.length - k) l, List.append_assoc]
    rw [sliceLast_append_of_le k (List.take (l.length - k) l)
      (List.drop (l.length - k) l ++ r) (by rw [List.length_append, hlen]; omega)]
    rfl

theorem foldl_pushHistory (ps : List (List Marker)) (h : List (List Marker))
    (hne : ps ≠ []) : List.foldl pushHistory h ps = sliceLast 10 (h ++ ps) := by
  induction ps generalizing h with
  | nil => exact absurd rfl hne
  | cons p rest ih =>
    rw [List.foldl_cons]
    rcases eq_or_ne rest [] with rfl | hr
    · rw [List.foldl_nil, pushHistory_eq_sliceLast]
    · rw [ih _ hr, pushHistory_eq_sliceLast, sliceLast_sliceLast_append,
        List.append_assoc, List.singleton_append]

/-- The pre-mutation snapshots recorded by a sequence of `handleAddMarker`
calls starting from marker list `mk`. -/
def preStates (mk : List Marker) : List Marker → List (List Marker)
  | [] => []
  | m :: rest => mk :: preStates (mk ++ [m]) rest

theorem preStates_length (ms : List Marker) (mk : List Marker) :
    (preStates mk ms).length = ms.length := by
  induction ms generalizing mk with
  | nil => rfl
  | cons m rest ih => simp [preStates, ih]

theorem foldl_handleAddMarker (ms : List Marker) (s : EditorState) :
    List.foldl handleAddMarker s ms =
      { s with markers := s.markers ++ ms
               history := List.foldl pushHistory s.history (preStates s.markers ms) } := by
  induction ms generalizing s with
  | nil => simp [preStates]
  | cons m rest ih =>
    rw [List.foldl_cons, ih]
    simp [handleAddMarker, preStates]

/-- C4: pushing onto the undo history never yields more than 10 entries
(oldest evicted first), and 15 sequential structural mutations (here: adds)
on one image followed by 10 undo calls land exactly on the marker list that
held after the 5th mutation — whatever the starting state. -/
theorem C4_undo_depth_cap (s : EditorState)
    (m1 m2 m3 m4 m5 m6 m7 m8 m9 m10 m11 m12 m13 m14 m15 : Marker) :
    (∀ (h : List (List Marker)) (snap : List Marker),
      (pushHistory h snap).length ≤ 10) ∧
    (handleUndo (handleUndo (handleUndo (handleUndo (handleUndo (handleUndo
      (handleUndo (handleUndo (handleUndo (handleUndo
        (List.foldl handleAddMarker s
          [m1, m2, m3, m4, m5, m6, m7, m8, m9, m10, m11, m12, m13, m14, m15]))))))))))).markers =
      s.markers ++ [m1, m2, m3, m4, m5] := by
  constructor
  · intro h snap
    simp only [pushHistory, sliceLast, List.length_append, List.length_drop,
      List.length_singleton]
    omega
  · rw [foldl_handleAddMarker]
    rw [foldl_pushHistory _ _ (by simp [preStates])]
    rw [sliceLast_append_of_le 10 _ _ (by rw [preStates_length]; simp)]
    simp only [preStates, sliceLast, List.length_cons]
    norm_num
    simp [handleUndo, List.append_assoc]

/-! ### C8: study reveal/lock cycle -/

theorem getElem?_setLockedAt (ms : List Marker) (G : List Nat) (b : Bool) (i : Nat) :
    (setLockedAt ms G b)[i]? =
      (ms[i]?).map (fun m => if i ∈ G then { m with isLocked := b } else m) := by
  simp [setLockedAt, List.getElem?_mapIdx]

theorem self_mem_groupIndicesOf {ms : List Marker} {marker : Marker} {index : Nat}
    (h : ms[index]? = some marker) : index ∈ groupIndicesOf ms marker index := by
  unfold groupIndicesOf
  by_cases hg : marker.groupId.isSome
  · rw [if_pos hg]
    refine List.mem_map.mpr ⟨(index, marker), ?_, rfl⟩
    exact List.mem_filter.mpr ⟨List.mk_mem_enum_iff_getElem?.mpr h, by simp⟩
  · rw [if_neg hg]
    exact List.mem_singleton.mpr rfl

theorem mem_groupIndicesOf {ms : List Marker} {marker : Marker} {index i : Nat}
    (hg : marker.groupId.isSome) (h : i ∈ groupIndicesOf ms marker index) :
    ∃ m, ms[i]? = some m ∧ m.groupId = marker.groupId := by
  rw [groupIndicesOf, if_pos hg] at h
  obtain ⟨⟨j, m⟩, hmem, rfl⟩ := List.mem_map.mp h
  obtain ⟨henum, hpred⟩ := List.mem_filter.mp hmem
  exact ⟨m, List.mk_mem_enum_iff_getElem?.mp henum, by simpa using hpred⟩

theorem forall₂_mapIdx {α : Type} {R : α → α → Prop} :
    ∀ (l : List α) (f : Nat → α → α), (∀ i a, R a (f i a)) →
      List.Forall₂ R l (l.mapIdx f)
  | [], _, _ => List.Forall₂.nil
  | a :: t, f, h => by
    rw [List.mapIdx_cons]
    exact List.Forall₂.cons (h 0 a) (forall₂_mapIdx t _ (fun i x => h (i + 1) x))

theorem enumFrom_filter_fst_congr (gid : Option Nat) {ms ms' : List Marker}
    (h : List.Forall₂ (fun a b => a.groupId = b.groupId) ms ms') : ∀ (n : Nat),
    ((List.enumFrom n ms').filter (fun p => p.2.groupId = gid)).map Prod.fst =
      ((List.enumFrom n ms).filter (fun p => p.2.groupId = gid)).map Prod.fst := by
  induction h with
  | nil => intro n; rfl
  | @cons a b l1 l2 hab _ ih =>
    intro n
    simp only [List.enumFrom_cons, List.filter_cons]
    by_cases hbg : b.groupId = gid
    · rw [if_pos (by simpa using hbg), if_pos (by simpa using hab.trans hbg)]
      simp only [List.map_cons, ih]
    · rw [if_neg (by simpa using hbg),
        if_neg (by simpa using fun h => hbg (hab.symm.trans h))]
      exact ih _

theorem groupIndicesOf_congr {ms ms' : List Marker} {marker marker' : Marker}
    (index : Nat) (hgid : marker'.groupId = marker.groupId)
    (hpt : List.Forall₂ (fun a b => a.groupId = b.groupId) ms ms') :
    groupIndicesOf ms' marker' index = groupIndicesOf ms marker index := by
  unfold groupIndicesOf
  rw [hgid]
  by_cases hg : marker.groupId.isSome
  · rw [if_pos hg, if_pos hg]
    exact enumFrom_filter_fst_congr marker.groupId hpt 0
  · rw [if_neg hg, if_neg hg]

theorem forall₂_groupId_setLockedAt (ms : List Marker) (G : List Nat) (b : Bool) :
    List.Forall₂ (fun a c => a.groupId = c.groupId) ms (setLockedAt ms G b) :=
  forall₂_mapIdx ms _ (fun i a => by by_cases h : i ∈ G <;> simp [h])

theorem handleMarkerTap_default (s : PlayerState) (index : Nat) (marker : Marker)
    (hget : s.markers[index]? = some marker) (h1 : marker.isLocked = false)
    (h2 : index ∉ s.transparentMarkers) :
    handleMarkerTap s index = some { s with transparentMarkers :=
      s.transparentMarkers ∪ (groupIndicesOf s.markers marker index).toFinset } := by
  unfold handleMarkerTap
  rw [hget]
  dsimp only
  rw [if_pos ⟨h1, h2⟩]

theorem handleMarkerTap_transparent (s : PlayerState) (index : Nat) (marker : Marker)
    (hget : s.markers[index]? = some marker) (h1 : marker.isLocked = false)
    (h2 : index ∈ s.transparentMarkers) :
    handleMarkerTap s index = some { s with
      markers := setLockedAt s.markers (groupIndicesOf s.markers marker index) true
      transparentMarkers :=
        s.transparentMarkers \ (groupIndicesOf s.markers marker index).toFinset
      writeLog := s.writeLog ++
        [setLockedAt s.markers (groupIndicesOf s.markers marker index) true] } := by
  unfold handleMarkerTap
  rw [hget]
  dsimp only
  rw [if_neg (fun h => h.2 h2), if_pos ⟨h1, h2⟩]

theorem handleMarkerTap_locked (s : PlayerState) (index : Nat) (marker : Marker)
    (hget : s.markers[index]? = some marker) (h1 : marker.isLocked = true) :
    handleMarkerTap s index = some { s with
      markers := setLockedAt s.markers (groupIndicesOf s.markers marker index) false
      writeLog := s.writeLog ++
        [setLockedAt s.markers (groupIndicesOf s.markers marker index) false] } := by
  unfold handleMarkerTap
  rw [hget]
  dsimp only
  rw [if_neg (fun h => by simp [h1] at h), if_neg (fun h => by simp [h1] at h)]

/-- C8: for a marker-or-group in the DEFAULT state (all members unlocked and
not transparent), three successive taps on one member cycle
DEFAULT → TRANSPARENT → LOCKED → DEFAULT: the first tap only marks every group
member transparent with no persistence write; the second persists
`isLocked = true` for every member and clears their transparency; the third
persists `isLocked = false` for every member. -/
theorem C8_reveal_lock_cycle (s : PlayerState) (index : Nat) (marker : Marker)
    (hget : s.markers[index]? = some marker)
    (hdef : ∀ i m, i ∈ groupIndicesOf s.markers marker index →
      s.markers[i]? = some m → m.isLocked = false)
    (htr : ∀ i ∈ groupIndicesOf s.markers marker index, i ∉ s.transparentMarkers) :
    ∃ s1 s2 s3,
      handleMarkerTap s index = some s1 ∧
      s1.markers = s.markers ∧
      s1.writeLog = s.writeLog ∧
      (∀ i ∈ groupIndicesOf s.markers marker index, i ∈ s1.transparentMarkers) ∧
      handleMarkerTap s1 index = some s2 ∧
      (∀ i m, i ∈ groupIndicesOf s.markers marker index → s.markers[i]? = some m →
        s2.markers[i]? = some { m with isLocked := true }) ∧
      s2.writeLog = s.writeLog ++ [s2.markers] ∧
      (∀ i ∈ groupIndicesOf s.markers marker index, i ∉ s2.transparentMarkers) ∧
      handleMarkerTap s2 index = some s3 ∧
      (∀ i m, i ∈ groupIndicesOf s.markers marker index → s.markers[i]? = some m →
        s3.markers[i]? = some { m with isLocked := false }) ∧
      s3.writeLog = s2.writeLog ++ [s3.markers] := by
  have hself : index ∈ groupIndicesOf s.markers marker index := self_mem_groupIndicesOf hget
  have hlock : marker.isLocked = false := hdef index marker hself hget
  have hget2 : (setLockedAt s.markers (groupIndicesOf s.markers marker index)
      true)[index]? = some { marker with isLocked := true } := by
    rw [getElem?_setLockedAt, hget]
    simp [hself]
  have hGeq : groupIndicesOf
      (setLockedAt s.markers (groupIndicesOf s.markers marker index) true)
      { marker with isLocked := true } index =
      groupIndicesOf s.markers marker index :=
    groupIndicesOf_congr index rfl (forall₂_groupId_setLockedAt s.markers _ true)
  have htap3 := handleMarkerTap_locked
    { markers := setLockedAt s.markers (groupIndicesOf s.markers marker index) true
      transparentMarkers :=
        (s.transparentMarkers ∪ (groupIndicesOf s.markers marker index).toFinset) \
          (groupIndicesOf s.markers marker index).toFinset
      writeLog := s.writeLog ++
        [setLockedAt s.markers (groupIndicesOf s.markers marker index) true] }
    index { marker with isLocked := true } hget2 rfl
  rw [show groupIndicesOf
      (PlayerState.markers
        { markers := setLockedAt s.markers (groupIndicesOf s.markers marker index) true
          transparentMarkers :=
            (s.transparentMarkers ∪ (groupIndicesOf s.markers marker index).toFinset) \
              (groupIndicesOf s.markers marker index).toFinset
          writeLog := s.writeLog ++
            [setLockedAt s.markers (groupIndicesOf s.markers marker index) true] })
      { marker with isLocked := true } index =
      groupIndicesOf s.markers marker index from hGeq] at htap3
  refine ⟨{ s with transparentMarkers :=
              s.transparentMarkers ∪ (groupIndicesOf s.markers marker index).toFinset },
          { markers := setLockedAt s.markers (groupIndicesOf s.markers marker index) true
            transparentMarkers :=
              (s.transparentMarkers ∪ (groupIndicesOf s.markers marker index).toFinset) \
                (groupIndicesOf s.markers marker index).toFinset
            writeLog := s.writeLog ++
              [setLockedAt s.markers (groupIndicesOf s.markers marker index) true] },
          { markers := setLockedAt
              (setLockedAt s.markers (groupIndicesOf s.markers marker index) true)
              (groupIndicesOf s.markers marker index) false
            transparentMarkers :=
              (s.transparentMarkers ∪ (groupIndicesOf s.markers marker index).toFinset) \
                (groupIndicesOf s.markers marker index).toFinset
            writeLog := (s.writeLog ++
                [setLockedAt s.markers (groupIndicesOf s.markers marker index) true]) ++
              [setLockedAt
                (setLockedAt s.markers (groupIndicesOf s.markers marker index) true)
                (groupIndicesOf s.markers marker index) false] },
          handleMarkerTap_default s index marker hget hlock (htr index hself),
          rfl, rfl, ?_,
          handleMarkerTap_transparent
            { s with transparentMarkers :=
                s.transparentMarkers ∪ (groupIndicesOf s.markers marker index).toFinset }
            index marker hget hlock
            (Finset.mem_union_right _ (List.mem_toFinset.mpr hself)),
          ?_, rfl, ?_, htap3, ?_, rfl⟩
  · intro i hi
    exact Finset.mem_union_right _ (List.mem_toFinset.mpr hi)
  · intro i m hi hm
    rw [getElem?_setLockedAt, hm]
    simp [hi]
  · intro i hi
    simp [List.mem_toFinset.mpr hi]
  · intro i m hi hm
    rw [getElem?_setLockedAt, getElem?_setLockedAt, hm]
    simp [hi]

/-- Concrete two-member group used to witness the reveal/lock cycle. -/
def tapDemoB : Marker :=
  { x := 80, y := 80, width := 10, height := 10, groupId := some 4, isLocked := false }

/-- Concrete player state used to witness the reveal/lock cycle. -/
def tapDemoState : PlayerState :=
  { markers := [{ x := 0, y := 0, width := 10, height := 10, groupId := some 4,
                  isLocked := false }, tapDemoB]
    transparentMarkers := ∅
    writeLog := [] }

theorem C8_reveal_lock_cycle_witness :
    (tapDemoState.markers[1]? = some tapDemoB ∧
      (∀ i m, i ∈ groupIndicesOf tapDemoState.markers tapDemoB 1 →
        tapDemoState.markers[i]? = some m → m.isLocked = false) ∧
      (∀ i ∈ groupIndicesOf tapDemoState.markers tapDemoB 1,
        i ∉ tapDemoState.transparentMarkers)) ∧
    (∃ s1 s2 s3, handleMarkerTap tapDemoState 1 = some s1 ∧
      handleMarkerTap s1 1 = some s2 ∧ handleMarkerTap s2 1 = some s3 ∧
      s1.writeLog = tapDemoState.writeLog ∧
      s2.writeLog = tapDemoState.writeLog ++ [s2.markers] ∧
      s3.writeLog = s2.writeLog ++ [s3.markers]) := by
  have hG : groupIndicesOf tapDemoState.markers tapDemoB 1 = [0, 1] := by rfl
  have hdef : ∀ i m, i ∈ groupIndicesOf tapDemoState.markers tapDemoB 1 →
      tapDemoState.markers[i]? = some m → m.isLocked = false := by
    intro i m hi hm
    rw [hG] at hi
    simp only [List.mem_cons, List.mem_singleton, List.not_mem_nil, or_false] at hi
    rcases hi with rfl | rfl <;>
      · simp only [tapDemoState] at hm
        injection hm with hm
        rw [← hm]
        rfl
  have htr : ∀ i ∈ groupIndicesOf tapDemoState.markers tapDemoB 1,
      i ∉ tapDemoState.transparentMarkers := by
    intro i _
    simp [tapDemoState]
  refine ⟨⟨rfl, hdef, htr⟩, ?_⟩
  obtain ⟨s1, s2, s3, h1, _, hw1, _, h2, _, hw2, _, h3, _, hw3⟩ :=
    C8_reveal_lock_cycle tapDemoState 1 tapDemoB rfl hdef htr
  exact ⟨s1, s2, s3, h1, h2, h3, hw1, hw2, hw3⟩

/-! ### Link toggling: branch computation lemmas -/

theorem handleLinkMarker_foreign_grouped (s : EditorState)
    (imageId targetIndex parentIndex : Nat) (parentMarker targetMarker : Marker)
    (gP gT : Nat)
    (hactive : s.linkActive = true) (himg : s.linkImageId = some imageId)
    (hpar : s.parentMarkerIndex = some parentIndex) (hne : parentIndex ≠ targetIndex)
    (hp : s.markers[parentIndex]? = some parentMarker)
    (ht : s.markers[targetIndex]? = some targetMarker)
    (hpg : parentMarker.groupId = some gP) (htg : targetMarker.groupId = some gT)
    (hdiff : gT ≠ gP) :
    handleLinkMarker s imageId targetIndex =
      some { s with history := pushHistory s.history s.markers } := by
  unfold handleLinkMarker
  rw [if_neg (fun h => h.elim (fun h1 => h1 hactive) (fun h2 => h2 himg)), hpar]
  dsimp only
  rw [if_neg hne, hp, ht]
  dsimp only
  rw [hpg]
  simp only [Option.getD_some]
  rw [if_neg (fun h => hdiff (Option.some.inj (htg ▸ h))),
    if_neg (fun h => by rw [htg] at h; cases h)]

theorem handleLinkMarker_foreign_ungrouped (s : EditorState)
    (imageId targetIndex parentIndex : Nat) (parentMarker targetMarker : Marker)
    (gT : Nat)
    (hactive : s.linkActive = true) (himg : s.linkImageId = some imageId)
    (hpar : s.parentMarkerIndex = some parentIndex) (hne : parentIndex ≠ targetIndex)
    (hp : s.markers[parentIndex]? = some parentMarker)
    (ht : s.markers[targetIndex]? = some targetMarker)
    (hpg : parentMarker.groupId = none) (htg : targetMarker.groupId = some gT)
    (hfresh : gT ≠ freshGroupId s.markers) :
    handleLinkMarker s imageId targetIndex =
      some { s with
        markers := s.markers.set parentIndex
          { parentMarker with groupId := some (freshGroupId s.markers) }
        history := pushHistory s.history s.markers } := by
  unfold handleLinkMarker
  rw [if_neg (fun h => h.elim (fun h1 => h1 hactive) (fun h2 => h2 himg)), hpar]
  dsimp only
  rw [if_neg hne, hp, ht]
  dsimp only
  rw [hpg]
  simp only [Option.getD_none]
  rw [if_neg (fun h => hfresh (Option.some.inj (htg ▸ h))),
    if_neg (fun h => by rw [htg] at h; cases h)]

theorem handleLinkMarker_unlink (s : EditorState)
    (imageId targetIndex parentIndex : Nat) (parentMarker targetMarker : Marker)
    (g : Nat)
    (hactive : s.linkActive = true) (himg : s.linkImageId = some imageId)
    (hpar : s.parentMarkerIndex = some parentIndex) (hne : parentIndex ≠ targetIndex)
    (hp : s.markers[parentIndex]? = some parentMarker)
    (ht : s.markers[targetIndex]? = some targetMarker)
    (hpg : parentMarker.groupId = some g) (htg : targetMarker.groupId = some g) :
    handleLinkMarker s imageId targetIndex =
      some { s with
        markers :=
          if ((s.markers.set targetIndex { targetMarker with groupId := none }).enum.filter
              (fun p => p.1 ≠ parentIndex ∧ p.2.groupId = some g)).length = 0 then
            (s.markers.set targetIndex { targetMarker with groupId := none }).set
              parentIndex { parentMarker with groupId := none }
          else s.markers.set targetIndex { targetMarker with groupId := none }
        history := pushHistory s.history s.markers } := by
  unfold handleLinkMarker
  rw [if_neg (fun h => h.elim (fun h1 => h1 hactive) (fun h2 => h2 himg)), hpar]
  dsimp only
  rw [if_neg hne, hp, ht]
  dsimp only
  rw [hpg]
  simp only [Option.getD_some]
  rw [if_pos htg]
  rw [List.getElem?_set_ne (Ne.symm hne), hp]

theorem handleLinkMarker_link_grouped (s : EditorState)
    (imageId targetIndex parentIndex : Nat) (parentMarker targetMarker : Marker)
    (g : Nat)
    (hactive : s.linkActive = true) (himg : s.linkImageId = some imageId)
    (hpar : s.parentMarkerIndex = some parentIndex) (hne : parentIndex ≠ targetIndex)
    (hp : s.markers[parentIndex]? = some parentMarker)
    (ht : s.markers[targetIndex]? = some targetMarker)
    (hpg : parentMarker.groupId = some g) (htg : targetMarker.groupId = none) :
    handleLinkMarker s imageId targetIndex =
      some (if targetIndex < parentIndex then
        { s with
          markers := ((s.markers.set targetIndex
              { targetMarker with groupId := some g }).eraseIdx
                parentIndex).insertIdx targetIndex parentMarker
          history := pushHistory s.history s.markers
          parentMarkerIndex := some targetIndex }
      else
        { s with
          markers := s.markers.set targetIndex { targetMarker with groupId := some g }
          history := pushHistory s.history s.markers }) := by
  unfold handleLinkMarker
  rw [if_neg (fun h => h.elim (fun h1 => h1 hactive) (fun h2 => h2 himg)), hpar]
  dsimp only
  rw [if_neg hne, hp, ht]
  dsimp only
  rw [hpg]
  simp only [Option.getD_some]
  rw [if_neg (fun h => by rw [htg] at h; cases h), if_pos htg]
  by_cases hlt : targetIndex < parentIndex
  · rw [if_pos hlt, if_pos hlt]
    rw [List.getElem?_set_ne (Ne.symm hne), hp]
  · rw [if_neg hlt, if_neg hlt]

theorem handleLinkMarker_link_ungrouped (s : EditorState)
    (imageId targetIndex parentIndex : Nat) (parentMarker targetMarker : Marker)
    (hactive : s.linkActive = true) (himg : s.linkImageId = some imageId)
    (hpar : s.parentMarkerIndex = some parentIndex) (hne : parentIndex ≠ targetIndex)
    (hp : s.markers[parentIndex]? = some parentMarker)
    (ht : s.markers[targetIndex]? = some targetMarker)
    (hpg : parentMarker.groupId = none) (htg : targetMarker.groupId = none) :
    handleLinkMarker s imageId targetIndex =
      some (if targetIndex < parentIndex then
        { s with
          markers := (((s.markers.set parentIndex
              { parentMarker with groupId := some (freshGroupId s.markers) }).set
                targetIndex
                { targetMarker with groupId := some (freshGroupId s.markers) }).eraseIdx
                  parentIndex).insertIdx targetIndex
                    { parentMarker with groupId := some (freshGroupId s.markers) }
          history := pushHistory s.history s.markers
          parentMarkerIndex := some targetIndex }
      else
        { s with
          markers := (s.markers.set parentIndex
            { parentMarker with groupId := some (freshGroupId s.markers) }).set
              targetIndex { targetMarker with groupId := some (freshGroupId s.markers) }
          history := pushHistory s.history s.markers }) := by
  have hplen : parentIndex < s.markers.length := by
    by_contra hge
    rw [List.getElem?_eq_none (Nat.le_of_not_lt hge)] at hp
    cases hp
  unfold handleLinkMarker
  rw [if_neg (fun h => h.elim (fun h1 => h1 hactive) (fun h2 => h2 himg)), hpar]
  dsimp only
  rw [if_neg hne, hp, ht]
  dsimp only
  rw [hpg]
  simp only [Option.getD_none]
  rw [if_neg (fun h => by rw [htg] at h; cases h), if_pos htg]
  by_cases hlt : targetIndex < parentIndex
  · rw [if_pos hlt, if_pos hlt]
    rw [List.getElem?_set_ne (Ne.symm hne),
      List.getElem?_set_self hplen]
  · rw [if_neg hlt, if_neg hlt]

theorem lt_length_of_getElem? {α : Type} {l : List α} {i : Nat} {a : α}
    (h : l[i]? = some a) : i < l.length :=
  (List.getElem?_eq_some_iff.mp h).1

/-- Index characterization of `List.insertIdx` (the JS
`splice(n, 0, x)` insertion). -/
theorem getElem?_insertIdx {α : Type} (x : α) :
    ∀ (n : Nat) (l : List α), n ≤ l.length → ∀ (j : Nat),
      (List.insertIdx n x l)[j]? =
        if j < n then l[j]? else if j = n then some x else l[j - 1]?
  | 0, l, _, j => by
    cases j with
    | zero => simp [List.insertIdx_zero]
    | succ j => simp [List.insertIdx_zero]
  | n + 1, [], hn, j => by cases hn
  | n + 1, a :: t, hn, j => by
    rw [List.insertIdx_succ_cons]
    cases j with
    | zero => simp
    | succ j =>
      have ih := getElem?_insertIdx x n t (by simpa using hn) j
      simp only [List.getElem?_cons_succ, ih]
      by_cases h1 : j < n
      · rw [if_pos h1, if_pos (show j + 1 < n + 1 by omega)]
      · rw [if_neg h1, if_neg (show ¬ (j + 1 < n + 1) by omega)]
        by_cases h2 : j = n
        · rw [if_pos h2, if_pos (show j + 1 = n + 1 by omega)]
        · rw [if_neg h2, if_neg (show ¬ (j + 1 = n + 1) by omega)]
          obtain ⟨k, rfl⟩ : ∃ k, j = k + 1 := ⟨j - 1, by omega⟩
          simp

theorem marker_groupId_update_self {m : Marker} {g : Nat} (h : m.groupId = some g) :
    { m with groupId := some g } = m := by
  cases m
  simp only [Marker.mk.injEq, and_true, true_and]
  exact h.symm

/-! ### C1: link exclusivity -/

/-- The ungrouped anchor of the C1 counterexample state. -/
def cexAnchor : Marker := { x := 0, y := 0, width := 10, height := 10 }

/-- The foreign-grouped target of the C1 counterexample state. -/
def cexTarget : Marker :=
  { x := 50, y := 50, width := 10, height := 10, groupId := some 7 }

/-- Concrete state falsifying C1: an ungrouped anchor at index 0 with an open
link session, and a target at index 1 that belongs to the foreign group 7. -/
def exclusivityCex : EditorState :=
  { markers := [cexAnchor, cexTarget]
    history := []
    linkActive := true
    parentMarkerIndex := some 0
    linkImageId := some 1 }

/-- C1 counterexample: toggling the link on the foreign-grouped target is not
a silent no-op — the marker list changes, because the ungrouped anchor is
assigned a fresh group id before the exclusivity check rejects the target. -/
theorem C1_counterexample :
    (handleLinkMarker exclusivityCex 1 1).map EditorState.markers ≠
      some exclusivityCex.markers := by
  decide

/-- C1 amended: toggling the link on a target in a different, non-empty group
leaves the target and every other marker unchanged; when the anchor already
carries a group id the whole marker list is unchanged, but when the anchor is
ungrouped it is assigned a fresh group id (one used by no marker in the list),
so the anchor's group id does change in that case. -/
theorem C1_link_exclusivity_amended (s : EditorState)
    (imageId targetIndex parentIndex : Nat) (parentMarker targetMarker : Marker)
    (gT : Nat)
    (hactive : s.linkActive = true) (himg : s.linkImageId = some imageId)
    (hpar : s.parentMarkerIndex = some parentIndex) (hne : parentIndex ≠ targetIndex)
    (hp : s.markers[parentIndex]? = some parentMarker)
    (ht : s.markers[targetIndex]? = some targetMarker)
    (htg : targetMarker.groupId = some gT)
    (hdiff : parentMarker.groupId ≠ some gT) :
    (∀ gP, parentMarker.groupId = some gP →
      handleLinkMarker s imageId targetIndex =
        some { s with history := pushHistory s.history s.markers }) ∧
    (parentMarker.groupId = none →
      handleLinkMarker s imageId targetIndex =
        some { s with
          markers := s.markers.set parentIndex
            { parentMarker with groupId := some (freshGroupId s.markers) }
          history := pushHistory s.history s.markers } ∧
      (∀ m ∈ s.markers, m.groupId ≠ some (freshGroupId s.markers))) := by
  constructor
  · intro gP hpg
    exact handleLinkMarker_foreign_grouped s imageId targetIndex parentIndex
      parentMarker targetMarker gP gT hactive himg hpar hne hp ht hpg htg
      (fun hEq => hdiff (hpg.trans (congrArg some hEq.symm)))
  · intro hpg
    have hfresh : gT ≠ freshGroupId s.markers := fun hEq =>
      freshGroupId_not_used (List.getElem?_mem ht) (htg.trans (congrArg some hEq))
    exact ⟨handleLinkMarker_foreign_ungrouped s imageId targetIndex parentIndex
        parentMarker targetMarker gT hactive himg hpar hne hp ht hpg htg hfresh,
      fun m hm => freshGroupId_not_used hm⟩

theorem C1_link_exclusivity_amended_witness :
    (exclusivityCex.linkActive = true ∧
      exclusivityCex.linkImageId = some 1 ∧
      exclusivityCex.parentMarkerIndex = some 0 ∧
      (0 : Nat) ≠ 1 ∧
      exclusivityCex.markers[0]? = some cexAnchor ∧
      exclusivityCex.markers[1]? = some cexTarget ∧
      cexTarget.groupId = some 7 ∧
      cexAnchor.groupId ≠ some 7 ∧
      cexAnchor.groupId = none) ∧
    (handleLinkMarker exclusivityCex 1 1 =
      some { exclusivityCex with
        markers := exclusivityCex.markers.set 0
          { cexAnchor with groupId := some (freshGroupId exclusivityCex.markers) }
        history := pushHistory exclusivityCex.history exclusivityCex.markers } ∧
      (∀ m ∈ exclusivityCex.markers,
        m.groupId ≠ some (freshGroupId exclusivityCex.markers))) :=
  ⟨⟨rfl, rfl, rfl, by decide, rfl, rfl, rfl, by decide, rfl⟩,
    (C1_link_exclusivity_amended exclusivityCex 1 1 0 cexAnchor cexTarget 7
      rfl rfl rfl (by decide) rfl rfl rfl (by decide)).2 rfl⟩

/-! ### C9: unlink and group dissolution -/

/-- C9: when the target of an open link session carries the same group id as
the anchor, toggling strips the target's group id; and when no marker other
than the anchor carries that id, the anchor's id is stripped too, so both end
ungrouped. -/
theorem C9_unlink_dissolve (s : EditorState)
    (imageId targetIndex parentIndex : Nat) (parentMarker targetMarker : Marker)
    (g : Nat)
    (hactive : s.linkActive = true) (himg : s.linkImageId = some imageId)
    (hpar : s.parentMarkerIndex = some parentIndex) (hne : parentIndex ≠ targetIndex)
    (hp : s.markers[parentIndex]? = some parentMarker)
    (ht : s.markers[targetIndex]? = some targetMarker)
    (hpg : parentMarker.groupId = some g) (htg : targetMarker.groupId = some g) :
    ∃ s', handleLinkMarker s imageId targetIndex = some s' ∧
      s'.markers[targetIndex]? = some { targetMarker with groupId := none } ∧
      ((∀ j m, j ≠ parentIndex → j ≠ targetIndex → s.markers[j]? = some m →
          m.groupId ≠ some g) →
        s'.markers[parentIndex]? = some { parentMarker with groupId := none } ∧
        s'.markers[targetIndex]? = some { targetMarker with groupId := none }) := by
  have htlen : targetIndex < s.markers.length := lt_length_of_getElem? ht
  have hplen : parentIndex < s.markers.length := lt_length_of_getElem? hp
  have heq := handleLinkMarker_unlink s imageId targetIndex parentIndex
    parentMarker targetMarker g hactive himg hpar hne hp ht hpg htg
  have hms2t : (s.markers.set targetIndex
      { targetMarker with groupId := none })[targetIndex]? =
      some { targetMarker with groupId := none } :=
    List.getElem?_set_self (by simpa using htlen)
  refine ⟨_, heq, ?_, ?_⟩
  · by_cases hc : ((s.markers.set targetIndex
        { targetMarker with groupId := none }).enum.filter
          (fun p => p.1 ≠ parentIndex ∧ p.2.groupId = some g)).length = 0
    · show (if _ then _ else _)[targetIndex]? = _
      rw [if_pos hc, List.getElem?_set_ne hne, hms2t]
    · show (if _ then _ else _)[targetIndex]? = _
      rw [if_neg hc, hms2t]
  · intro hnone
    have hc : ((s.markers.set targetIndex
        { targetMarker with groupId := none }).enum.filter
          (fun p => p.1 ≠ parentIndex ∧ p.2.groupId = some g)).length = 0 := by
      rw [List.length_eq_zero, List.filter_eq_nil_iff]
      rintro ⟨j, m⟩ hmem hpred
      simp only [decide_eq_true_eq] at hpred
      obtain ⟨hjp, hjg⟩ := hpred
      have hj := List.mem_enum_iff_getElem?.mp hmem
      by_cases hjt : j = targetIndex
      · subst hjt
        rw [hms2t] at hj
        injection hj with hj
        dsimp only at hj
        rw [← hj] at hjg
        simp at hjg
      · rw [List.getElem?_set_ne (fun h => hjt (h.symm)) ] at hj
        exact hnone j m hjp hjt hj hjg
    constructor
    · show (if _ then _ else _)[parentIndex]? = _
      rw [if_pos hc,
        List.getElem?_set_self (by simpa using hplen)]
    · show (if _ then _ else _)[targetIndex]? = _
      rw [if_pos hc, List.getElem?_set_ne hne, hms2t]

/-- Anchor of the two-member group used to witness unlink dissolution. -/
def unlinkDemoA : Marker :=
  { x := 0, y := 0, width := 10, height := 10, groupId := some 4 }

/-- Member of the two-member group used to witness unlink dissolution. -/
def unlinkDemoB : Marker :=
  { x := 80, y := 80, width := 10, height := 10, groupId := some 4 }

/-- Editor state with an open link session on a two-member group. -/
def unlinkDemo : EditorState :=
  { markers := [unlinkDemoA, unlinkDemoB]
    history := []
    linkActive := true
    parentMarkerIndex := some 0
    linkImageId := some 1 }

theorem C9_unlink_dissolve_witness :
    (unlinkDemo.linkActive = true ∧ unlinkDemo.linkImageId = some 1 ∧
      unlinkDemo.parentMarkerIndex = some 0 ∧ (0 : Nat) ≠ 1 ∧
      unlinkDemo.markers[0]? = some unlinkDemoA ∧
      unlinkDemo.markers[1]? = some unlinkDemoB ∧
      unlinkDemoA.groupId = some 4 ∧ unlinkDemoB.groupId = some 4) ∧
    (∃ s', handleLinkMarker unlinkDemo 1 1 = some s' ∧
      s'.markers[0]? = some { unlinkDemoA with groupId := none } ∧
      s'.markers[1]? = some { unlinkDemoB with groupId := none }) := by
  refine ⟨⟨rfl, rfl, rfl, by decide, rfl, rfl, rfl, rfl⟩, ?_⟩
  obtain ⟨s', heq, _, himp⟩ := C9_unlink_dissolve unlinkDemo 1 1 0
    unlinkDemoA unlinkDemoB 4 rfl rfl rfl (by decide) rfl rfl rfl rfl
  have hlen : unlinkDemo.markers.length = 2 := rfl
  have h2 := himp (fun j m hj0 hj1 hm => by
    rw [List.getElem?_eq_none (by omega)] at hm
    cases hm)
  exact ⟨s', heq, h2.1, h2.2⟩

/-! ### C10: anchor keeps the lowest index after linking -/

/-- Index characterization of the `splice`-based move in `handleLinkMarker`:
remove the element at `p` and re-insert `x` at `t < p`. -/
theorem splice_spec {α : Type} (l : List α) (t p : Nat) (x : α)
    (hlt : t < p) (hp : p < l.length) :
    ((l.eraseIdx p).insertIdx t x)[t]? = some x ∧
    ((l.eraseIdx p).insertIdx t x)[t + 1]? = l[t]? ∧
    (∀ j, j < t → ((l.eraseIdx p).insertIdx t x)[j]? = l[j]?) := by
  have hel : (l.eraseIdx p).length = l.length - 1 := List.length_eraseIdx_of_lt hp
  have hn : t ≤ (l.eraseIdx p).length := by omega
  refine ⟨?_, ?_, ?_⟩
  · rw [getElem?_insertIdx x t _ hn t]
    simp
  · rw [getElem?_insertIdx x t _ hn (t + 1)]
    rw [if_neg (by omega), if_neg (by omega)]
    simp only [Nat.add_sub_cancel]
    exact List.getElem?_eraseIdx_of_lt l p t hlt
  · intro j hj
    rw [getElem?_insertIdx x t _ hn j, if_pos hj]
    exact List.getElem?_eraseIdx_of_lt l p j (by omega)

/-- Shared characterization of a successful link of an ungrouped target:
result state, updated session anchor index, the positions of the anchor and
target markers, and the fact that no marker carrying the group id sits below
the anchor's (new) index. -/
theorem link_success_spec (s : EditorState)
    (imageId targetIndex parentIndex : Nat) (parentMarker targetMarker : Marker)
    (hactive : s.linkActive = true) (himg : s.linkImageId = some imageId)
    (hpar : s.parentMarkerIndex = some parentIndex) (hne : parentIndex ≠ targetIndex)
    (hp : s.markers[parentIndex]? = some parentMarker)
    (ht : s.markers[targetIndex]? = some targetMarker)
    (htg : targetMarker.groupId = none)
    (hlow : ∀ g, parentMarker.groupId = some g →
      ∀ j m, s.markers[j]? = some m → m.groupId = some g → parentIndex ≤ j) :
    ∃ s', handleLinkMarker s imageId targetIndex = some s' ∧
      s'.parentMarkerIndex =
        some (if targetIndex < parentIndex then targetIndex else parentIndex) ∧
      s'.markers[if targetIndex < parentIndex then targetIndex else parentIndex]? =
        some { parentMarker with
          groupId := some (parentMarker.groupId.getD (freshGroupId s.markers)) } ∧
      s'.markers[if targetIndex < parentIndex then targetIndex + 1 else targetIndex]? =
        some { targetMarker with
          groupId := some (parentMarker.groupId.getD (freshGroupId s.markers)) } ∧
      (∀ j m, s'.markers[j]? = some m →
        m.groupId = some (parentMarker.groupId.getD (freshGroupId s.markers)) →
        (if targetIndex < parentIndex then targetIndex else parentIndex) ≤ j) := by
  have htlen : targetIndex < s.markers.length := lt_length_of_getElem? ht
  have hplen : parentIndex < s.markers.length := lt_length_of_getElem? hp
  cases hpgid : parentMarker.groupId with
  | some g =>
    have heq := handleLinkMarker_link_grouped s imageId targetIndex parentIndex
      parentMarker targetMarker g hactive himg hpar hne hp ht hpgid htg
    simp only [hpgid, Option.getD_some]
    by_cases hlt : targetIndex < parentIndex
    · rw [if_pos hlt] at heq
      simp only [if_pos hlt]
      have hbp : parentIndex <
          (s.markers.set targetIndex { targetMarker with groupId := some g }).length := by
        simpa using hplen
      obtain ⟨hs1, hs2, hs3⟩ := splice_spec
        (s.markers.set targetIndex { targetMarker with groupId := some g })
        targetIndex parentIndex parentMarker hlt hbp
      refine ⟨_, heq, rfl, ?_, ?_, ?_⟩
      · rw [hs1, marker_groupId_update_self hpgid]
      · rw [hs2, List.getElem?_set_self (by simpa using htlen)]
      · intro j m hj hg
        by_contra hcon
        push_neg at hcon
        rw [hs3 j hcon,
          List.getElem?_set_ne (fun h => hne (by omega))] at hj
        have := hlow g hpgid j m hj hg
        omega
    · rw [if_neg hlt] at heq
      simp only [if_neg hlt]
      have hplt : parentIndex < targetIndex := by omega
      refine ⟨_, heq, hpar ▸ rfl, ?_, ?_, ?_⟩
      · rw [List.getElem?_set_ne (Ne.symm hne), hp,
          marker_groupId_update_self hpgid]
      · rw [List.getElem?_set_self (by simpa using htlen)]
      · intro j m hj hg
        by_contra hcon
        push_neg at hcon
        rw [List.getElem?_set_ne (fun h => by omega)] at hj
        have := hlow g hpgid j m hj hg
        omega
  | none =>
    have heq := handleLinkMarker_link_ungrouped s imageId targetIndex parentIndex
      parentMarker targetMarker hactive himg hpar hne hp ht hpgid htg
    simp only [hpgid, Option.getD_none]
    by_cases hlt : targetIndex < parentIndex
    · rw [if_pos hlt] at heq
      simp only [if_pos hlt]
      have hbp : parentIndex <
          ((s.markers.set parentIndex
            { parentMarker with groupId := some (freshGroupId s.markers) }).set
              targetIndex
              { targetMarker with
                groupId := some (freshGroupId s.markers) }).length := by
        simpa using hplen
      obtain ⟨hs1, hs2, hs3⟩ := splice_spec
        ((s.markers.set parentIndex
          { parentMarker with groupId := some (freshGroupId s.markers) }).set
            targetIndex { targetMarker with groupId := some (freshGroupId s.markers) })
        targetIndex parentIndex
        { parentMarker with groupId := some (freshGroupId s.markers) } hlt hbp
      refine ⟨_, heq, rfl, ?_, ?_, ?_⟩
      · rw [hs1]
      · rw [hs2, List.getElem?_set_self (by simpa using htlen)]
      · intro j m hj hg
        by_contra hcon
        push_neg at hcon
        rw [hs3 j hcon,
          List.getElem?_set_ne (fun h => hne (by omega)),
          List.getElem?_set_ne (fun h => by omega)] at hj
        exact freshGroupId_not_used (List.getElem?_mem hj) hg
    · rw [if_neg hlt] at heq
      simp only [if_neg hlt]
      refine ⟨_, heq, hpar ▸ rfl, ?_, ?_, ?_⟩
      · rw [List.getElem?_set_ne (Ne.symm hne),
          List.getElem?_set_self (by simpa using hplen)]
      · rw [List.getElem?_set_self (by simpa using htlen)]
      · intro j m hj hg
        by_contra hcon
        push_neg at hcon
        rw [List.getElem?_set_ne (fun h => by omega),
          List.getElem?_set_ne (fun h => by omega)] at hj
        exact freshGroupId_not_used (List.getElem?_mem hj) hg

/-- C10: after a successful link of an ungrouped target, the anchor occupies
the lowest index among the group's members — when the target's index is lower
than the anchor's, the marker list is reordered by moving the anchor marker to
the target's former position (the target slides down one) and the session's
anchor index is updated accordingly; otherwise order is untouched.  In both
cases no marker carrying the group id sits below the anchor's (new) index. -/
theorem C10_anchor_lowest_after_link (s : EditorState)
    (imageId targetIndex parentIndex : Nat) (parentMarker targetMarker : Marker)
    (hactive : s.linkActive = true) (himg : s.linkImageId = some imageId)
    (hpar : s.parentMarkerIndex = some parentIndex) (hne : parentIndex ≠ targetIndex)
    (hp : s.markers[parentIndex]? = some parentMarker)
    (ht : s.markers[targetIndex]? = some targetMarker)
    (htg : targetMarker.groupId = none)
    (hlow : ∀ g, parentMarker.groupId = some g →
      ∀ j m, s.markers[j]? = some m → m.groupId = some g → parentIndex ≤ j) :
    ∃ s', handleLinkMarker s imageId targetIndex = some s' ∧
      s'.parentMarkerIndex =
        some (if targetIndex < parentIndex then targetIndex else parentIndex) ∧
      s'.markers[if targetIndex < parentIndex then targetIndex else parentIndex]? =
        some { parentMarker with
          groupId := some (parentMarker.groupId.getD (freshGroupId s.markers)) } ∧
      s'.markers[if targetIndex < parentIndex then targetIndex + 1 else targetIndex]? =
        some { targetMarker with
          groupId := some (parentMarker.groupId.getD (freshGroupId s.markers)) } ∧
      (∀ j m, s'.markers[j]? = some m →
        m.groupId = some (parentMarker.groupId.getD (freshGroupId s.markers)) →
        (if targetIndex < parentIndex then targetIndex else parentIndex) ≤ j) :=
  link_success_spec s imageId targetIndex parentIndex parentMarker targetMarker
    hactive himg hpar hne hp ht htg hlow

/-- Ungrouped marker that will become the target of the reorder witness. -/
def linkDemoT : Marker := { x := 0, y := 0, width := 10, height := 10 }

/-- Ungrouped marker that will become the anchor of the reorder witness. -/
def linkDemoP : Marker := { x := 80, y := 80, width := 10, height := 10 }

/-- Editor state with an open link session whose anchor (index 1) sits after
the ungrouped target (index 0). -/
def linkDemo : EditorState :=
  { markers := [linkDemoT, linkDemoP]
    history := []
    linkActive := true
    parentMarkerIndex := some 1
    linkImageId := some 1 }

theorem C10_anchor_lowest_after_link_witness :
    (linkDemo.linkActive = true ∧ linkDemo.linkImageId = some 1 ∧
      linkDemo.parentMarkerIndex = some 1 ∧ (1 : Nat) ≠ 0 ∧
      linkDemo.markers[1]? = some linkDemoP ∧
      linkDemo.markers[0]? = some linkDemoT ∧
      linkDemoT.groupId = none) ∧
    (∃ s', handleLinkMarker linkDemo 1 0 = some s' ∧
      s'.parentMarkerIndex = some (if (0 : Nat) < 1 then 0 else 1) ∧
      s'.markers[if (0 : Nat) < 1 then 0 else 1]? =
        some { linkDemoP with
          groupId := some (linkDemoP.groupId.getD (freshGroupId linkDemo.markers)) } ∧
      s'.markers[if (0 : Nat) < 1 then 0 + 1 else 0]? =
        some { linkDemoT with
          groupId := some (linkDemoP.groupId.getD (freshGroupId linkDemo.markers)) } ∧
      (∀ j m, s'.markers[j]? = some m →
        m.groupId = some (linkDemoP.groupId.getD (freshGroupId linkDemo.markers)) →
        (if (0 : Nat) < 1 then 0 else 1) ≤ j)) :=
  ⟨⟨rfl, rfl, rfl, by decide, rfl, rfl, rfl⟩,
    C10_anchor_lowest_after_link linkDemo 1 0 1 linkDemoP linkDemoT
      rfl rfl rfl (by decide) rfl rfl rfl
      (fun g hg => by simp [linkDemoP] at hg)⟩

/-! ### C3: group-cascade deletion -/

theorem handleRemoveMarker_grouped (s : EditorState) (index : Nat)
    (targetMarker : Marker) (g : Nat)
    (hget : s.markers[index]? = some targetMarker)
    (hg : targetMarker.groupId = some g) :
    handleRemoveMarker s index =
      some { s with markers := s.markers.filter (fun m => m.groupId ≠ some g)
                    history := pushHistory s.history s.markers } := by
  unfold handleRemoveMarker
  rw [hget]
  dsimp only
  rw [hg]

theorem enumFrom_filter_ne_all {α : Type} :
    ∀ (m : Nat) (t : List α) (k : Nat), k < m →
      ((t.enumFrom m).filter (fun p => p.1 ≠ k)).map Prod.snd = t
  | _, [], _, _ => rfl
  | m, a :: t, k, hk => by
    rw [List.enumFrom_cons, List.filter_cons,
      if_pos (by simp only [decide_eq_true_eq]; omega), List.map_cons,
      enumFrom_filter_ne_all (m + 1) t k (by omega)]

theorem enumFrom_filter_ne_map_snd_eq_eraseIdx {α : Type} :
    ∀ (n : Nat) (l : List α) (i : Nat),
      ((l.enumFrom n).filter (fun p => p.1 ≠ n + i)).map Prod.snd = l.eraseIdx i
  | _, [], _ => rfl
  | n, a :: t, 0 => by
    rw [List.enumFrom_cons, List.filter_cons,
      if_neg (by simp), List.eraseIdx_cons_zero]
    exact enumFrom_filter_ne_all (n + 1) t n (by omega)
  | n, a :: t, i + 1 => by
    rw [List.enumFrom_cons, List.filter_cons,
      if_pos (by simp only [decide_eq_true_eq]; omega), List.map_cons,
      List.eraseIdx_cons_succ]
    have h := enumFrom_filter_ne_map_snd_eq_eraseIdx (n + 1) t i
    rw [show n + (i + 1) = (n + 1) + i by omega, h]

theorem enum_filter_ne_map_snd_eq_eraseIdx {α : Type} (l : List α) (i : Nat) :
    ((l.enum.filter (fun p => p.1 ≠ i)).map Prod.snd) = l.eraseIdx i := by
  have h := enumFrom_filter_ne_map_snd_eq_eraseIdx 0 l i
  simpa using h

theorem handleRemoveMarker_ungrouped (s : EditorState) (index : Nat)
    (targetMarker : Marker)
    (hget : s.markers[index]? = some targetMarker)
    (hg : targetMarker.groupId = none) :
    handleRemoveMarker s index =
      some { s with markers := s.markers.eraseIdx index
                    history := pushHistory s.history s.markers } := by
  unfold handleRemoveMarker
  rw [hget]
  dsimp only
  rw [hg]
  dsimp only
  rw [enum_filter_ne_map_snd_eq_eraseIdx]

/-- C3: erasing a marker that belongs to a group removes, in one mutation,
exactly the markers sharing its group id; erasing an ungrouped marker removes
only the marker at that index; and after a successful link of B into A's
group, removing the anchor removes both A and B. -/
theorem C3_remove_group_cascade :
    (∀ (s : EditorState) (index : Nat) (targetMarker : Marker) (g : Nat),
      s.markers[index]? = some targetMarker → targetMarker.groupId = some g →
      handleRemoveMarker s index =
        some { s with markers := s.markers.filter (fun m => m.groupId ≠ some g)
                      history := pushHistory s.history s.markers }) ∧
    (∀ (s : EditorState) (index : Nat) (targetMarker : Marker),
      s.markers[index]? = some targetMarker → targetMarker.groupId = none →
      handleRemoveMarker s index =
        some { s with markers := s.markers.eraseIdx index
                      history := pushHistory s.history s.markers }) ∧
    (∀ (s : EditorState) (imageId targetIndex parentIndex : Nat)
        (parentMarker targetMarker : Marker),
      s.linkActive = true → s.linkImageId = some imageId →
      s.parentMarkerIndex = some parentIndex → parentIndex ≠ targetIndex →
      s.markers[parentIndex]? = some parentMarker →
      s.markers[targetIndex]? = some targetMarker →
      targetMarker.groupId = none →
      (∀ g, parentMarker.groupId = some g →
        ∀ j m, s.markers[j]? = some m → m.groupId = some g → parentIndex ≤ j) →
      ∃ s' s'', handleLinkMarker s imageId targetIndex = some s' ∧
        handleRemoveMarker s'
          (if targetIndex < parentIndex then targetIndex else parentIndex) =
          some s'' ∧
        (∀ m ∈ s''.markers,
          m.groupId ≠ some (parentMarker.groupId.getD (freshGroupId s.markers))) ∧
        { parentMarker with
          groupId := some (parentMarker.groupId.getD (freshGroupId s.markers)) } ∉
            s''.markers ∧
        { targetMarker with
          groupId := some (parentMarker.groupId.getD (freshGroupId s.markers)) } ∉
            s''.markers) := by
  refine ⟨handleRemoveMarker_grouped, handleRemoveMarker_ungrouped, ?_⟩
  intro s imageId targetIndex parentIndex parentMarker targetMarker
    hactive himg hpar hne hp ht htg hlow
  obtain ⟨s', heq, _, hanchor, _, _⟩ := link_success_spec s imageId targetIndex
    parentIndex parentMarker targetMarker hactive himg hpar hne hp ht htg hlow
  have hremove := handleRemoveMarker_grouped s'
    (if targetIndex < parentIndex then targetIndex else parentIndex)
    { parentMarker with
      groupId := some (parentMarker.groupId.getD (freshGroupId s.markers)) }
    (parentMarker.groupId.getD (freshGroupId s.markers)) hanchor rfl
  refine ⟨s', _, heq, hremove, ?_, ?_, ?_⟩
  · intro m hm
    have := List.of_mem_filter hm
    simpa using this
  · intro hm
    have := List.of_mem_filter hm
    simp at this
  · intro hm
    have := List.of_mem_filter hm
    simp at this

theorem C3_remove_group_cascade_witness :
    (unlinkDemo.markers[0]? = some unlinkDemoA ∧ unlinkDemoA.groupId = some 4 ∧
      handleRemoveMarker unlinkDemo 0 =
        some { unlinkDemo with
          markers := unlinkDemo.markers.filter (fun m => m.groupId ≠ some 4)
          history := pushHistory unlinkDemo.history unlinkDemo.markers }) ∧
    (exclusivityCex.markers[0]? = some cexAnchor ∧ cexAnchor.groupId = none ∧
      handleRemoveMarker exclusivityCex 0 =
        some { exclusivityCex with
          markers := exclusivityCex.markers.eraseIdx 0
          history := pushHistory exclusivityCex.history exclusivityCex.markers }) ∧
    (∃ s' s'', handleLinkMarker linkDemo 1 0 = some s' ∧
      handleRemoveMarker s' (if (0 : Nat) < 1 then 0 else 1) = some s'' ∧
      (∀ m ∈ s''.markers,
        m.groupId ≠ some (linkDemoP.groupId.getD (freshGroupId linkDemo.markers))) ∧
      { linkDemoP with
        groupId := some (linkDemoP.groupId.getD (freshGroupId linkDemo.markers)) } ∉
          s''.markers ∧
      { linkDemoT with
        groupId := some (linkDemoP.groupId.getD (freshGroupId linkDemo.markers)) } ∉
          s''.markers) :=
  ⟨⟨rfl, rfl, C3_remove_group_cascade.1 unlinkDemo 0 unlinkDemoA 4 rfl rfl⟩,
   ⟨rfl, rfl, C3_remove_group_cascade.2.1 exclusivityCex 0 cexAnchor rfl rfl⟩,
   C3_remove_group_cascade.2.2 linkDemo 1 0 1 linkDemoP linkDemoT rfl rfl rfl
     (by decide) rfl rfl rfl (fun g hg => by simp [linkDemoP] at hg)⟩

end ImageMarker
